import Mathlib

/-!
Verification development for `src/core/models/upr_base.py` (upRNA).

The numeric tensor pipeline is embedded symbolically: a `Ten` expression tree
whose constructors correspond one-to-one to the torch operations the source
applies (channel slicing, scalar multiplication, bilinear `F.interpolate`,
softsplat forward warping, the correlation volume, learned convolution stages,
channel concatenation).  Learned convolutions are opaque nodes tagged with the
module/layer they come from (their trained weights are out of scope, as the
spec states).  Shapes that matter to the claims are tracked by the `chans`
function (channel arithmetic) and by the explicit height/width arguments the
source writes at `torch.zeros` call sites.

The per-pixel prediction decoding and blending of `SynthesisNetwork.forward`
(lines 286-295) is embedded separately over the reals, since those claims are
about real-valued identities and bounds.
-/

namespace UprBase

/-- The two input modalities; `Model.__init__` instantiates one `FeatPyramid`
per modality (`feat_pyramid_rgb`, `feat_pyramid_depth`). -/
inductive Modality
  | rgb
  | depth
  deriving DecidableEq

/-- Tags naming the learned convolution weights: `pyr m s i` is conv `i` of
`conv_stage{s}` of the feature pyramid for modality `m`; `me i` is
`MotionEstimator.conv_layer{i}`. -/
inductive Wt
  | pyr : Modality → ℕ → ℕ → Wt
  | me : ℕ → Wt
  deriving DecidableEq

/-- The `strType` argument of `softsplat.FunctionSoftsplat`; every call in
`upr_base.py` passes the literal string `average`. -/
inductive SplatMode
  | average
  deriving DecidableEq

/-- The `tenMetric` argument of `softsplat.FunctionSoftsplat`; every call in
`upr_base.py` passes `None`. -/
inductive TenMetric
  | noMetric
  deriving DecidableEq

/-- Symbolic tensors.  Each constructor embeds one torch operation used by
`upr_base.py`:

* `var c i` — an abstract input tensor with `c` channels (identifier `i`);
* `zeros n c h w` — `torch.zeros((n, c, h, w))`;
* `slice lo hi x` — the channel slice `x[:, lo:hi]`;
* `sliceFrom lo x` — the channel slice `x[:, lo:]`;
* `smul k x` — `x * k` for a scalar `k`;
* `add a b` — elementwise `a + b`;
* `resize s ac x` — `F.interpolate(input=x, scale_factor=s, mode="bilinear",
  align_corners=ac)` (every interpolate call in the file is bilinear);
* `splat inp fl m md` — `softsplat.FunctionSoftsplat(tenInput=inp,
  tenFlow=fl, tenMetric=m, strType=md)`;
* `corr a b` — `correlation.FunctionCorrelation(tenFirst=a, tenSecond=b)`,
  which per the spec's §6 contract has `(2*4+1)^2 = 81` output channels;
* `leaky s x` — `LeakyReLU(negative_slope=s)` / `F.leaky_relu`;
* `cat2 a b` — binary channel concatenation; `torch.cat([t1, ..., tk], 1)`
  is embedded as the right-nested `cat2 t1 (cat2 t2 (... tk))`;
* `conv w inC outC k st pad x` — one learned `nn.Conv2d(in_channels=inC,
  out_channels=outC, kernel_size=k, stride=st, padding=pad)` tagged `w`;
* `synth ...` — the frame produced by `SynthesisNetwork` from the arguments
  of the call at lines 377-379: prior interpolation, both images, the two
  3-level concatenated feature pyramids, the 3-level flow pyramid, and the
  time period (the synthesis internals are opaque to the scheduler claims). -/
inductive Ten
  | var : ℕ → ℕ → Ten
  | zeros : ℕ → ℕ → ℕ → ℕ → Ten
  | slice : ℕ → ℕ → Ten → Ten
  | sliceFrom : ℕ → Ten → Ten
  | smul : ℚ → Ten → Ten
  | add : Ten → Ten → Ten
  | resize : ℚ → Bool → Ten → Ten
  | splat : Ten → Ten → TenMetric → SplatMode → Ten
  | corr : Ten → Ten → Ten
  | leaky : ℚ → Ten → Ten
  | cat2 : Ten → Ten → Ten
  | conv : Wt → ℕ → ℕ → ℕ → ℕ → ℕ → Ten → Ten
  | synth : Ten → Ten → Ten → Ten → Ten → Ten → Ten → Ten → Ten → Ten → Ten → Ten → ℚ → Ten
  deriving DecidableEq

/-- Channel count of a symbolic tensor.  A slice `[:, lo:hi]` has `hi - lo`
channels, concatenation adds channel counts, a convolution outputs its
`out_channels`, the correlation volume has `(2*4+1)^2 = 81` channels, and the
synthesized frame has the 3 color channels of the merged RGB image. -/
def chans : Ten → ℕ
  | .var c _ => c
  | .zeros _ c _ _ => c
  | .slice lo hi _ => hi - lo
  | .sliceFrom lo x => chans x - lo
  | .smul _ x => chans x
  | .add a _ => chans a
  | .resize _ _ x => chans x
  | .splat inp _ _ _ => chans inp
  | .corr _ _ => 81
  | .leaky _ x => chans x
  | .cat2 a b => chans a + chans b
  | .conv _ _ outC _ _ _ _ => outC
  | .synth _ _ _ _ _ _ _ _ _ _ _ _ _ => 3

/-- `MotionEstimator.conv_layer1`: `Conv2d(277, 160, 1, 1, 0)` followed by
`LeakyReLU(0.1)`. -/
def me_conv_layer1 (x : Ten) : Ten := .leaky (1/10) (.conv (.me 1) 277 160 1 1 0 x)

/-- `MotionEstimator.conv_layer2`: `Conv2d(160, 128, 3, 1, 1)` followed by
`LeakyReLU(0.1)`. -/
def me_conv_layer2 (x : Ten) : Ten := .leaky (1/10) (.conv (.me 2) 160 128 3 1 1 x)

/-- `MotionEstimator.conv_layer3`: `Conv2d(128, 112, 3, 1, 1)` followed by
`LeakyReLU(0.1)`. -/
def me_conv_layer3 (x : Ten) : Ten := .leaky (1/10) (.conv (.me 3) 128 112 3 1 1 x)

/-- `MotionEstimator.conv_layer4`: `Conv2d(112, 96, 3, 1, 1)` followed by
`LeakyReLU(0.1)`. -/
def me_conv_layer4 (x : Ten) : Ten := .leaky (1/10) (.conv (.me 4) 112 96 3 1 1 x)

/-- `MotionEstimator.conv_layer5`: `Conv2d(96, 64, 3, 1, 1)` followed by
`LeakyReLU(0.1)`. -/
def me_conv_layer5 (x : Ten) : Ten := .leaky (1/10) (.conv (.me 5) 96 64 3 1 1 x)

/-- `MotionEstimator.conv_layer6`: a bare `Conv2d(64, 4, 3, 1, 1)` with no
activation. -/
def me_conv_layer6 (x : Ten) : Ten := .conv (.me 6) 64 4 3 1 1 x

/-- `MotionEstimator.forward` (lines 148-168): pre-warp `feat0` by
`last_flow[:, :2] * 0.25 * 0.5` and `feat1` by `last_flow[:, 2:] * 0.25 * 0.5`
via softsplat with `tenMetric=None, strType=average`; build the leaky-ReLU'd
correlation volume of the warped features; concatenate
`[volume, feat0, feat1, last_feat, last_flow]` on the channel axis; run the
six conv layers; return `(flow, feat)` where `feat` is the fifth stage's
output and `flow = conv_layer6(feat)`. -/
def motion_estimator_forward (feat0 feat1 last_feat last_flow : Ten) : Ten × Ten :=
  let feat0w := Ten.splat feat0 (.smul (1/2) (.smul (1/4) (.slice 0 2 last_flow)))
    .noMetric .average
  let feat1w := Ten.splat feat1 (.smul (1/2) (.smul (1/4) (.sliceFrom 2 last_flow)))
    .noMetric .average
  let volume := Ten.leaky (1/10) (.corr feat0w feat1w)
  let input_feat := Ten.cat2 volume (.cat2 feat0w (.cat2 feat1w (.cat2 last_feat last_flow)))
  let feat := me_conv_layer5 (me_conv_layer4 (me_conv_layer3 (me_conv_layer2
    (me_conv_layer1 input_feat))))
  let flow := me_conv_layer6 feat
  (flow, feat)

/-- `FeatPyramid.conv_stage0` (4 × (`Conv2d` + `LeakyReLU(0.1)`), channels
3→16→16→16→16, stride 1). -/
def conv_stage0 (m : Modality) (img : Ten) : Ten :=
  .leaky (1/10) (.conv (.pyr m 0 3) 16 16 3 1 1 (
  .leaky (1/10) (.conv (.pyr m 0 2) 16 16 3 1 1 (
  .leaky (1/10) (.conv (.pyr m 0 1) 16 16 3 1 1 (
  .leaky (1/10) (.conv (.pyr m 0 0) 3 16 3 1 1 img)))))))

/-- `FeatPyramid.conv_stage1` (4 × (`Conv2d` + `LeakyReLU(0.1)`), channels
16→32→32→32→32, first conv stride 2). -/
def conv_stage1 (m : Modality) (x : Ten) : Ten :=
  .leaky (1/10) (.conv (.pyr m 1 3) 32 32 3 1 1 (
  .leaky (1/10) (.conv (.pyr m 1 2) 32 32 3 1 1 (
  .leaky (1/10) (.conv (.pyr m 1 1) 32 32 3 1 1 (
  .leaky (1/10) (.conv (.pyr m 1 0) 16 32 3 2 1 x)))))))

/-- `FeatPyramid.conv_stage2` (4 × (`Conv2d` + `LeakyReLU(0.1)`), channels
32→64→64→64→64, first conv stride 2). -/
def conv_stage2 (m : Modality) (x : Ten) : Ten :=
  .leaky (1/10) (.conv (.pyr m 2 3) 64 64 3 1 1 (
  .leaky (1/10) (.conv (.pyr m 2 2) 64 64 3 1 1 (
  .leaky (1/10) (.conv (.pyr m 2 1) 64 64 3 1 1 (
  .leaky (1/10) (.conv (.pyr m 2 0) 32 64 3 2 1 x)))))))

/-- `Model.forward_one_lvl` (lines 320-381), stated over its own parameter
list: build the RGB and depth feature pyramids, concatenate them per level,
run the motion estimator unless `skip_me` (in which case `flow, feat` are the
priors unchanged), upsample the quarter-resolution flow ×4, build the 3-level
flow pyramid (each sub-level resized ×1/2 with magnitude halved), default the
prior interpolation to the direct linear warp-blend when it is `None`
(lines 364-374), and synthesize the frame.  The returned triple is
`(flow, feat, interp_img)`; the diagnostic `extra_dict` is omitted. -/
def forward_one_lvl (img0_rgb img1_rgb img0_depth img1_depth last_feat last_flow : Ten)
    (last_interp : Option Ten) (time_period : ℚ) (skip_me : Bool) : Ten × Ten × Ten :=
  let f0r0 := conv_stage0 .rgb img0_rgb
  let f0r1 := conv_stage1 .rgb f0r0
  let f0r2 := conv_stage2 .rgb f0r1
  let f1r0 := conv_stage0 .rgb img1_rgb
  let f1r1 := conv_stage1 .rgb f1r0
  let f1r2 := conv_stage2 .rgb f1r1
  let f0d0 := conv_stage0 .depth img0_depth
  let f0d1 := conv_stage1 .depth f0d0
  let f0d2 := conv_stage2 .depth f0d1
  let f1d0 := conv_stage0 .depth img1_depth
  let f1d1 := conv_stage1 .depth f1d0
  let f1d2 := conv_stage2 .depth f1d1
  let feat0_0 := Ten.cat2 f0r0 f0d0
  let feat0_1 := Ten.cat2 f0r1 f0d1
  let feat0_2 := Ten.cat2 f0r2 f0d2
  let feat1_0 := Ten.cat2 f1r0 f1d0
  let feat1_1 := Ten.cat2 f1r1 f1d1
  let feat1_2 := Ten.cat2 f1r2 f1d2
  let fl := if skip_me then (last_flow, last_feat)
    else motion_estimator_forward feat0_2 feat1_2 last_feat last_flow
  let flow := fl.1
  let feat := fl.2
  let ori_resolution_flow := Ten.resize 4 false flow
  let bf1 := Ten.smul (1/2) (.resize (1/2) false ori_resolution_flow)
  let bf2 := Ten.smul (1/2) (.resize (1/2) false bf1)
  let li := match last_interp with
    | some x => x
    | none =>
        let flow_0t := Ten.smul time_period (.slice 0 2 ori_resolution_flow)
        let flow_1t := Ten.smul (1 - time_period) (.slice 2 4 ori_resolution_flow)
        let warped_img0 := Ten.splat img0_rgb flow_0t .noMetric .average
        let warped_img1 := Ten.splat img1_rgb flow_1t .noMetric .average
        Ten.add (.smul (1 - time_period) warped_img0) (.smul time_period warped_img1)
  let interp_img := Ten.synth li img0_rgb img1_rgb
    feat0_0 feat0_1 feat0_2 feat1_0 feat1_1 feat1_2
    ori_resolution_flow bf1 bf2 time_period
  (flow, feat, interp_img)

/-- Recognizes a frame produced by the synthesis network. -/
def isSynth : Ten → Bool
  | .synth _ _ _ _ _ _ _ _ _ _ _ _ _ => true
  | _ => false

/-- Recognizes the output of a `MotionEstimator` convolution layer. -/
def isMEConv : Ten → Bool
  | .conv (.me _) _ _ _ _ _ _ => true
  | _ => false

/-- Lines 391-392 of `Model.forward`:
`skipped_levels = [] if nr_lvl_skipped == 0 else
 list(range(pyr_level))[::-1][-nr_lvl_skipped:]`.
Python's negative slice `l[-nr:]` keeps the last `min(nr, len(l))` elements,
i.e. drops the first `len(l) - nr` (truncated at 0), which is what `List.drop`
with truncated subtraction computes. -/
def skipped_levels (pyr_level nr_lvl_skipped : ℕ) : List ℕ :=
  if nr_lvl_skipped = 0 then []
  else
    let l := (List.range pyr_level).reverse
    l.drop (l.length - nr_lvl_skipped)

/-- The per-call context of `Model.forward`: the two input images, the batch
and spatial sizes from `img0.shape`, the time period, the pyramid depth and
the computed skip list. -/
structure Ctx where
  img0 : Ten
  img1 : Ten
  N : ℕ
  H : ℕ
  W : ℕ
  time_period : ℚ
  pyr_level : ℕ
  skipped : List ℕ

/-- Builds the context exactly as the prologue of `Model.forward` does. -/
def mkCtx (img0 img1 : Ten) (time_period : ℚ) (pyr_level nr_lvl_skipped N H W : ℕ) : Ctx :=
  ⟨img0, img1, N, H, W, time_period, pyr_level, skipped_levels pyr_level nr_lvl_skipped⟩

/-- The Python locals of `Model.forward` that survive across loop iterations:
`flow`, `feat`, `interp_img` (the results of the last executed
`forward_one_lvl` call), the local `last_feat` as most recently assigned
(the level-0 skip branch reads it without reassigning it), and the
accumulated `bi_flows` list. -/
structure St where
  flow : Ten
  feat : Ten
  interp_img : Ten
  last_feat : Ten
  bi_flows : List Ten

/-- Lines 408-447 of `Model.forward`: given the current loop state, compute
the `(last_flow, last_feat, last_interp, skip_me)` quadruple passed to
`forward_one_lvl` at this level, or `none` when the level performs no call
(the `continue` branch) or reads a Python local that was never assigned.

* level `pyr_level - 1`: zero flow (4 channels) and feature (64 channels) at
  `H // 2^(level+2) × W // 2^(level+2)`, no prior interpolation, `skip_me`
  stays `False`;
* level in `skipped_levels[:-1]`: `continue`;
* level 0 with a nonempty skip list: `skip_me = True`; if every level was
  skipped the flow is a fresh zero tensor at `H//4 × W//4` and the prior
  interpolation is `None`, otherwise the last flow is resized by
  `2^len(skipped_levels)` with its values multiplied by the same factor and
  the last interpolation is resized without rescaling; `last_feat` is not
  reassigned;
* otherwise: flow and feature resized ×2 with values ×2, interpolation
  resized ×2 unscaled, `skip_me` stays `False`. -/
def carryAtLevel (ctx : Ctx) (st : Option St) (level : ℕ) :
    Option (Ten × Ten × Option Ten × Bool) :=
  if level = ctx.pyr_level - 1 then
    some (.zeros ctx.N 4 (ctx.H / 2 ^ (level + 2)) (ctx.W / 2 ^ (level + 2)),
      .zeros ctx.N 64 (ctx.H / 2 ^ (level + 2)) (ctx.W / 2 ^ (level + 2)),
      none, false)
  else if level ∈ ctx.skipped.dropLast then
    none
  else if level = 0 ∧ ctx.skipped ≠ [] then
    match st with
    | none => none
    | some s =>
        if ctx.skipped.length = ctx.pyr_level then
          some (.zeros ctx.N 4 (ctx.H / 4) (ctx.W / 4), s.last_feat, none, true)
        else
          let resize_factor : ℚ := 2 ^ ctx.skipped.length
          some (.smul resize_factor (.resize resize_factor false s.flow), s.last_feat,
            some (.resize resize_factor false s.interp_img), true)
  else
    match st with
    | none => none
    | some s =>
        some (.smul 2 (.resize 2 false s.flow), .smul 2 (.resize 2 false s.feat),
          some (.resize 2 false s.interp_img), false)

/-- The type of the per-level callee as invoked at line 449:
`forward_one_lvl(img0_this_lvl, img1_this_lvl, last_feat, last_flow,
last_interp, time_period, skip_me=skip_me)` — six positional arguments plus
the keyword flag, returning `(flow, feat, interp_img)`.  The scheduler
theorems are stated for an arbitrary callee because the source call site
binds these six arguments to a nine-parameter signature (see the C1
theorem). -/
abbrev OneLvlFn : Type := Ten → Ten → Ten → Ten → Option Ten → ℚ → Bool → Ten × Ten × Ten

/-- One iteration of the level loop of `Model.forward` (lines 395-455):
downsample the inputs to this level, `continue` on a skipped intermediate
level, otherwise compute the carried state, call the per-level function and
append the ×4-upsampled flow to `bi_flows`. -/
def levelBody (ctx : Ctx) (f : OneLvlFn) (st : Option St) (level : ℕ) : Option St :=
  let img0_this_lvl := if level ≠ 0 then Ten.resize (1 / 2 ^ level) false ctx.img0 else ctx.img0
  let img1_this_lvl := if level ≠ 0 then Ten.resize (1 / 2 ^ level) false ctx.img1 else ctx.img1
  if level ∈ ctx.skipped.dropLast ∧ level ≠ ctx.pyr_level - 1 then st
  else
    match carryAtLevel ctx st level with
    | none => none
    | some (last_flow, last_feat, last_interp, skip_me) =>
        let r := f img0_this_lvl img1_this_lvl last_feat last_flow last_interp
          ctx.time_period skip_me
        some ⟨r.1, r.2.1, r.2.2, last_feat,
          (st.elim [] St.bi_flows) ++ [Ten.resize 4 false r.1]⟩

/-- Folds a loop body over the list of levels. -/
def runLoop (step : Option St → ℕ → Option St) : List ℕ → Option St → Option St
  | [], st => st
  | l :: ls, st => runLoop step ls (step st l)

/-- The value returned by `Model.forward` (lines 465-466): the first input
image, the finest interpolated frame, the ×4-upsampled final flow, and the
two diagnostic lists. -/
structure ModelOut where
  img0 : Ten
  interp_img : Ten
  bi_flow : Ten
  interp_imgs : List Ten
  bi_flows : List Ten
  deriving DecidableEq

/-- `Model.forward` (lines 383-466): iterate the levels `pyr_level-1, ..., 0`,
then upsample the final flow ×4 and return.  `interp_imgs` receives its single
append at line 463, after the loop.  `N, H, W` are the components of
`img0.shape`; the per-level callee is a parameter (see `OneLvlFn`).  The
result is `none` when a Python local would be read unassigned (e.g.
`pyr_level = 0`). -/
def model_forward (f : OneLvlFn) (img0 img1 : Ten) (time_period : ℚ)
    (pyr_level nr_lvl_skipped N H W : ℕ) : Option ModelOut :=
  let ctx := mkCtx img0 img1 time_period pyr_level nr_lvl_skipped N H W
  match runLoop (levelBody ctx f) ((List.range pyr_level).reverse) none with
  | none => none
  | some s =>
      some ⟨img0, s.interp_img, .resize 4 false s.flow, [s.interp_img], s.bi_flows⟩

/-- A level is processed (its iteration reaches the `forward_one_lvl` call)
iff it is the coarsest level or it is not in `skipped_levels[:-1]`. -/
def processedB (ctx : Ctx) (level : ℕ) : Bool :=
  decide (level = ctx.pyr_level - 1) || !(decide (level ∈ ctx.skipped.dropLast))

/-- Context of the spec's skip-free pyramid (spec §4.5 with no skip
parameter): just the images, sizes, time period and depth. -/
structure CtxN where
  img0 : Ten
  img1 : Ten
  N : ℕ
  H : ℕ
  W : ℕ
  time_period : ℚ
  pyr_level : ℕ

/-- Modelled from the spec (§4.5), for the C9 comparison: one iteration of a
pyramid with no skip handling at all — the coarsest level initializes zero
state, every other level upsamples flow/feature ×2 with magnitude doubled and
the interpolation ×2 unscaled, and every level calls the per-level function
with the skip flag `false`. -/
def levelBodyNoSkip (ctx : CtxN) (f : OneLvlFn) (st : Option St) (level : ℕ) : Option St :=
  let img0_this_lvl := if level ≠ 0 then Ten.resize (1 / 2 ^ level) false ctx.img0 else ctx.img0
  let img1_this_lvl := if level ≠ 0 then Ten.resize (1 / 2 ^ level) false ctx.img1 else ctx.img1
  if level = ctx.pyr_level - 1 then
    let last_flow := Ten.zeros ctx.N 4 (ctx.H / 2 ^ (level + 2)) (ctx.W / 2 ^ (level + 2))
    let last_feat := Ten.zeros ctx.N 64 (ctx.H / 2 ^ (level + 2)) (ctx.W / 2 ^ (level + 2))
    let r := f img0_this_lvl img1_this_lvl last_feat last_flow none ctx.time_period false
    some ⟨r.1, r.2.1, r.2.2, last_feat,
      (st.elim [] St.bi_flows) ++ [Ten.resize 4 false r.1]⟩
  else
    match st with
    | none => none
    | some s =>
        let last_flow := Ten.smul 2 (.resize 2 false s.flow)
        let last_feat := Ten.smul 2 (.resize 2 false s.feat)
        let last_interp := some (Ten.resize 2 false s.interp_img)
        let r := f img0_this_lvl img1_this_lvl last_feat last_flow last_interp
          ctx.time_period false
        some ⟨r.1, r.2.1, r.2.2, last_feat, s.bi_flows ++ [Ten.resize 4 false r.1]⟩

/-- Modelled from the spec (§4.5), for the C9 comparison: the pyramid driver
with no skip parameter — process every level from coarsest to finest, then
upsample the final flow ×4 and return. -/
def model_forward_noskip (f : OneLvlFn) (img0 img1 : Ten) (time_period : ℚ)
    (pyr_level N H W : ℕ) : Option ModelOut :=
  let ctx : CtxN := ⟨img0, img1, N, H, W, time_period, pyr_level⟩
  match runLoop (levelBodyNoSkip ctx f) ((List.range pyr_level).reverse) none with
  | none => none
  | some s =>
      some ⟨img0, s.interp_img, .resize 4 false s.flow, [s.interp_img], s.bi_flows⟩

/-- A shape-checked learned convolution: PyTorch raises when the input's
channel count differs from the layer's `in_channels`. -/
def conv_checked (w : Wt) (inC outC k st pad : ℕ) (x : Ten) : Option Ten :=
  if chans x = inC then some (.conv w inC outC k st pad x) else none

/-- `FeatPyramid.conv_stage0` with the PyTorch channel check made explicit:
its first convolution requires a 3-channel input. -/
def conv_stage0_checked (m : Modality) (img : Ten) : Option Ten := do
  let a ← conv_checked (.pyr m 0 0) 3 16 3 1 1 img
  let b ← conv_checked (.pyr m 0 1) 16 16 3 1 1 (.leaky (1/10) a)
  let c ← conv_checked (.pyr m 0 2) 16 16 3 1 1 (.leaky (1/10) b)
  let d ← conv_checked (.pyr m 0 3) 16 16 3 1 1 (.leaky (1/10) c)
  pure (Ten.leaky (1/10) d)

/-- The parameters of `forward_one_lvl` (line 320) with the types of the
values the call at line 449 actually binds to them: `last_feat` receives the
`last_interp` variable (an optional tensor) and `last_flow` receives the
scalar `time_period`. -/
structure OneLvlParams where
  img0_rgb : Ten
  img1_rgb : Ten
  img0_depth : Ten
  img1_depth : Ten
  last_feat : Option Ten
  last_flow : ℚ
  last_interp : Option Ten
  time_period : ℚ
  skip_me : Bool

/-- Python's positional binding of the call at lines 449-452,
`self.forward_one_lvl(img0_this_lvl, img1_this_lvl, last_feat, last_flow,
last_interp, time_period, skip_me=skip_me)`, against the signature
`forward_one_lvl(self, img0_rgb, img1_rgb, img0_depth, img1_depth, last_feat,
last_flow, last_interp=None, time_period=0.5, skip_me=False)`: the six
positional arguments land on the first six parameters, so the depth-image
parameters receive the carried feature and flow state, `last_feat` receives
the prior interpolation and `last_flow` receives the scalar time period,
while `last_interp` and `time_period` keep their defaults. -/
def forward_one_lvl_call_binding (img0_this_lvl img1_this_lvl last_feat last_flow : Ten)
    (last_interp : Option Ten) (time_period : ℚ) (skip_me : Bool) : OneLvlParams :=
  ⟨img0_this_lvl, img1_this_lvl, last_feat, last_flow, last_interp, time_period,
    none, 1/2, skip_me⟩

/-- `torch.sigmoid`: the logistic function `1 / (1 + exp(-x))`. -/
noncomputable def sigmoid (x : ℝ) : ℝ := 1 / (1 + Real.exp (-x))

/-- `torch.clamp(x, 0, 1)`. -/
noncomputable def clamp01 (x : ℝ) : ℝ := min (max x 0) 1

/-- Line 287, per pixel: `refine_res = torch.sigmoid(refine[:, :3]) * 2 - 1`
— the value of residual channel `i` given the 5 prediction channels. -/
noncomputable def refine_res (pred : Fin 5 → ℝ) (i : Fin 3) : ℝ :=
  sigmoid (pred (Fin.castLE (by decide) i)) * 2 - 1

/-- Line 288, per pixel: `refine_mask0 = torch.sigmoid(refine[:, 3:4])`. -/
noncomputable def refine_mask0 (pred : Fin 5 → ℝ) : ℝ := sigmoid (pred 3)

/-- Line 289, per pixel: `refine_mask1 = torch.sigmoid(refine[:, 4:5])`. -/
noncomputable def refine_mask1 (pred : Fin 5 → ℝ) : ℝ := sigmoid (pred 4)

/-- Lines 290-293, per pixel, as a function of the warped pixel values, the
two mask values and the time period:
`merged_img = (warped_img0_rgb * refine_mask0 * (1 - time_period)
             + warped_img1_rgb * refine_mask1 * time_period)
            / (refine_mask0 * (1 - time_period)
             + refine_mask1 * time_period)`. -/
noncomputable def merged_pixel (w0 w1 m0 m1 t : ℝ) : ℝ :=
  (w0 * m0 * (1 - t) + w1 * m1 * t) / (m0 * (1 - t) + m1 * t)

/-- Lines 290-293, per pixel, with the masks decoded from the prediction. -/
noncomputable def merged_img_pixel (pred : Fin 5 → ℝ) (w0 w1 t : ℝ) : ℝ :=
  merged_pixel w0 w1 (refine_mask0 pred) (refine_mask1 pred) t

/-- Lines 294-295, per pixel and color channel:
`interp_img = torch.clamp(merged_img + refine_res, 0, 1)`. -/
noncomputable def interp_img_pixel (pred : Fin 5 → ℝ) (w0 w1 : Fin 3 → ℝ) (t : ℝ)
    (i : Fin 3) : ℝ :=
  clamp01 (merged_img_pixel pred (w0 i) (w1 i) t + refine_res pred i)

/-! ### Helper lemmas -/

theorem sigmoid_pos (x : ℝ) : 0 < sigmoid x := by
  unfold sigmoid
  positivity

theorem sigmoid_lt_one (x : ℝ) : sigmoid x < 1 := by
  unfold sigmoid
  rw [div_lt_one (by positivity)]
  linarith [Real.exp_pos (-x)]

theorem range_reverse_succ (n : ℕ) :
    (List.range (n + 1)).reverse = n :: (List.range n).reverse := by
  simp [List.range_succ]

theorem skipped_levels_eq (p nr : ℕ) (h1 : 1 ≤ nr) (h2 : nr ≤ p) :
    skipped_levels p nr = (List.range nr).reverse := by
  unfold skipped_levels
  rw [if_neg (by omega)]
  simp only [List.length_reverse, List.length_range]
  obtain ⟨k, rfl⟩ : ∃ k, p = nr + k := ⟨p - nr, by omega⟩
  induction k with
  | zero => simp
  | succ k ih =>
      rw [show nr + (k + 1) = (nr + k) + 1 by omega, range_reverse_succ,
        show nr + k + 1 - nr = (nr + k - nr) + 1 by omega, List.drop_succ_cons]
      exact ih (by omega)

theorem skipped_levels_length (p nr : ℕ) (h1 : 1 ≤ nr) (h2 : nr ≤ p) :
    (skipped_levels p nr).length = nr := by
  rw [skipped_levels_eq p nr h1 h2]
  simp

theorem skipped_levels_ne_nil (p nr : ℕ) (h1 : 1 ≤ nr) (h2 : nr ≤ p) :
    skipped_levels p nr ≠ [] := by
  rw [skipped_levels_eq p nr h1 h2]
  simp
  omega

theorem reverse_dropLast (l : List ℕ) : l.reverse.dropLast = l.tail.reverse := by
  cases l with
  | nil => rfl
  | cons a t => simp [List.reverse_cons, List.dropLast_concat]

theorem zero_not_mem_skipped_dropLast (p nr : ℕ) (h1 : 1 ≤ nr) (h2 : nr ≤ p) :
    0 ∉ (skipped_levels p nr).dropLast := by
  rw [skipped_levels_eq p nr h1 h2, reverse_dropLast]
  obtain ⟨m, rfl⟩ : ∃ m, nr = m + 1 := ⟨nr - 1, by omega⟩
  rw [List.range_succ_eq_map]
  simp

theorem carryAtLevel_some (ctx : Ctx) (s : St) (l : ℕ)
    (h : l = ctx.pyr_level - 1 ∨ l ∉ ctx.skipped.dropLast) :
    ∃ q, carryAtLevel ctx (some s) l = some q := by
  unfold carryAtLevel
  by_cases hl : l = ctx.pyr_level - 1
  · rw [if_pos hl]; exact ⟨_, rfl⟩
  · have hmem : l ∉ ctx.skipped.dropLast := h.resolve_left hl
    rw [if_neg hl, if_neg hmem]
    by_cases h0 : l = 0 ∧ ctx.skipped ≠ []
    · rw [if_pos h0]
      show ∃ q, (if ctx.skipped.length = ctx.pyr_level
          then some (Ten.zeros ctx.N 4 (ctx.H / 4) (ctx.W / 4), s.last_feat,
            (none : Option Ten), true)
          else
            let resize_factor : ℚ := 2 ^ ctx.skipped.length
            some (Ten.smul resize_factor (Ten.resize resize_factor false s.flow), s.last_feat,
              some (Ten.resize resize_factor false s.interp_img), true)) = some q
      by_cases hlen : ctx.skipped.length = ctx.pyr_level
      · rw [if_pos hlen]; exact ⟨_, rfl⟩
      · rw [if_neg hlen]; exact ⟨_, rfl⟩
    · rw [if_neg h0]; exact ⟨_, rfl⟩

theorem levelBody_length (ctx : Ctx) (f : OneLvlFn) (s : St) (l : ℕ) :
    ∃ s', levelBody ctx f (some s) l = some s' ∧
      s'.bi_flows.length = s.bi_flows.length + (if processedB ctx l then 1 else 0) := by
  unfold levelBody
  by_cases hg : l ∈ ctx.skipped.dropLast ∧ l ≠ ctx.pyr_level - 1
  · rw [if_pos hg]
    refine ⟨s, rfl, ?_⟩
    have : processedB ctx l = false := by
      unfold processedB
      simp [hg.1, hg.2]
    rw [this]
    simp
  · rw [if_neg hg]
    have hor : l = ctx.pyr_level - 1 ∨ l ∉ ctx.skipped.dropLast := by tauto
    obtain ⟨q, hq⟩ := carryAtLevel_some ctx s l hor
    obtain ⟨lf, lft, li, sm⟩ := q
    rw [hq]
    refine ⟨_, rfl, ?_⟩
    have : processedB ctx l = true := by
      unfold processedB
      rcases hor with h | h <;> simp [h]
    rw [this]
    simp

theorem runLoop_length (ctx : Ctx) (f : OneLvlFn) :
    ∀ (ls : List ℕ) (s : St), ∃ s',
      runLoop (levelBody ctx f) ls (some s) = some s' ∧
      s'.bi_flows.length = s.bi_flows.length + ls.countP (processedB ctx) := by
  intro ls
  induction ls with
  | nil => exact fun s => ⟨s, rfl, by simp⟩
  | cons l ls ih =>
      intro s
      obtain ⟨s1, h1, hl1⟩ := levelBody_length ctx f s l
      obtain ⟨s2, h2, hl2⟩ := ih s1
      refine ⟨s2, ?_, ?_⟩
      · show runLoop (levelBody ctx f) ls (levelBody ctx f (some s) l) = some s2
        rw [h1, h2]
      · rw [hl2, hl1, List.countP_cons]
        by_cases hp : processedB ctx l
        · simp [hp]; omega
        · simp [hp]

theorem levelBody_none_init (ctx : Ctx) (f : OneLvlFn) :
    ∃ s', levelBody ctx f none (ctx.pyr_level - 1) = some s' ∧ s'.bi_flows.length = 1 := by
  unfold levelBody
  rw [if_neg (by simp)]
  unfold carryAtLevel
  rw [if_pos rfl]
  exact ⟨_, rfl, by simp⟩

theorem runLoop_congr (s1 s2 : Option St → ℕ → Option St) (h : ∀ st l, s1 st l = s2 st l) :
    ∀ (ls : List ℕ) (st : Option St), runLoop s1 ls st = runLoop s2 ls st := by
  intro ls
  induction ls with
  | nil => intro st; rfl
  | cons l ls ih =>
      intro st
      show runLoop s1 ls (s1 st l) = runLoop s2 ls (s2 st l)
      rw [h, ih]

theorem levelBody_eq_noskip (ctx : Ctx) (hsk : ctx.skipped = []) (f : OneLvlFn) :
    ∀ (st : Option St) (l : ℕ),
      levelBody ctx f st l
        = levelBodyNoSkip ⟨ctx.img0, ctx.img1, ctx.N, ctx.H, ctx.W, ctx.time_period,
            ctx.pyr_level⟩ f st l := by
  intro st l
  unfold levelBody levelBodyNoSkip carryAtLevel
  rw [hsk]
  simp only [List.dropLast_nil, List.not_mem_nil, false_and, if_false, ne_eq,
    not_true_eq_false, and_false]
  by_cases hl : l = ctx.pyr_level - 1
  · rw [if_pos hl, if_pos hl]
  · rw [if_neg hl, if_neg hl]
    cases st <;> rfl

/-! ### Claim theorems -/

/-- C10: for every `pyr_level ≥ 1` and every `nr_lvl_skipped` with
`1 ≤ nr_lvl_skipped ≤ pyr_level`, the skip list computed at lines 391-392 is
exactly the `nr_lvl_skipped` finest levels `[nr_lvl_skipped-1, ..., 1, 0]`;
in particular it contains level 0, and it contains the coarsest level
`pyr_level - 1` iff `nr_lvl_skipped = pyr_level`. -/
theorem c10_skipped_levels (p nr : ℕ) (h1 : 1 ≤ nr) (h2 : nr ≤ p) :
    skipped_levels p nr = (List.range nr).reverse
    ∧ 0 ∈ skipped_levels p nr
    ∧ (p - 1 ∈ skipped_levels p nr ↔ nr = p) := by
  refine ⟨skipped_levels_eq p nr h1 h2, ?_, ?_⟩
  · rw [skipped_levels_eq p nr h1 h2]
    simp only [List.mem_reverse, List.mem_range]
    omega
  · rw [skipped_levels_eq p nr h1 h2]
    simp only [List.mem_reverse, List.mem_range]
    omega

/-- Witness for C10 at `pyr_level = 3`, `nr_lvl_skipped = 2`. -/
theorem c10_skipped_levels_witness :
    1 ≤ 2 ∧ 2 ≤ 3
    ∧ (skipped_levels 3 2 = (List.range 2).reverse
      ∧ 0 ∈ skipped_levels 3 2
      ∧ (3 - 1 ∈ skipped_levels 3 2 ↔ 2 = 3)) :=
  ⟨by decide, by decide, c10_skipped_levels 3 2 (by decide) (by decide)⟩

/-- C2: `MotionEstimator.forward` pre-warps `feat0` by the first two channels
of `last_flow` scaled by `0.25 * 0.5` and `feat1` by the remaining two
channels scaled the same way, both through softsplat in averaging mode with
no metric; the channel concatenation `[volume, feat0, feat1, last_feat,
last_flow]` has exactly `81 + 64 + 64 + 64 + 4 = 277` channels; the six
convolution stages follow the schedule 277→160→128→112→96→64→4 with a
`LeakyReLU(0.1)` after each stage except the sixth; and the function returns
the 4-channel flow together with the 64-channel fifth-stage feature, the flow
being the bare sixth convolution of that feature. -/
theorem c2_motion_estimator (feat0 feat1 last_feat last_flow : Ten)
    (h0 : chans feat0 = 64) (h1 : chans feat1 = 64)
    (h2 : chans last_feat = 64) (h3 : chans last_flow = 4) :
    let feat0w := Ten.splat feat0 (.smul (1/2) (.smul (1/4) (.slice 0 2 last_flow)))
      .noMetric .average
    let feat1w := Ten.splat feat1 (.smul (1/2) (.smul (1/4) (.sliceFrom 2 last_flow)))
      .noMetric .average
    let input_feat := Ten.cat2 (.leaky (1/10) (.corr feat0w feat1w))
      (.cat2 feat0w (.cat2 feat1w (.cat2 last_feat last_flow)))
    motion_estimator_forward feat0 feat1 last_feat last_flow
      = (me_conv_layer6 (me_conv_layer5 (me_conv_layer4 (me_conv_layer3 (me_conv_layer2
          (me_conv_layer1 input_feat))))),
        me_conv_layer5 (me_conv_layer4 (me_conv_layer3 (me_conv_layer2
          (me_conv_layer1 input_feat)))))
    ∧ chans (Ten.slice 0 2 last_flow) = 2
    ∧ chans (Ten.sliceFrom 2 last_flow) = 2
    ∧ chans input_feat = 277
    ∧ (∀ x : Ten,
        me_conv_layer1 x = .leaky (1/10) (.conv (.me 1) 277 160 1 1 0 x)
        ∧ me_conv_layer2 x = .leaky (1/10) (.conv (.me 2) 160 128 3 1 1 x)
        ∧ me_conv_layer3 x = .leaky (1/10) (.conv (.me 3) 128 112 3 1 1 x)
        ∧ me_conv_layer4 x = .leaky (1/10) (.conv (.me 4) 112 96 3 1 1 x)
        ∧ me_conv_layer5 x = .leaky (1/10) (.conv (.me 5) 96 64 3 1 1 x)
        ∧ me_conv_layer6 x = .conv (.me 6) 64 4 3 1 1 x)
    ∧ chans (motion_estimator_forward feat0 feat1 last_feat last_flow).1 = 4
    ∧ chans (motion_estimator_forward feat0 feat1 last_feat last_flow).2 = 64
    ∧ (motion_estimator_forward feat0 feat1 last_feat last_flow).1
        = me_conv_layer6 ((motion_estimator_forward feat0 feat1 last_feat last_flow).2) := by
  refine ⟨rfl, by simp [chans], by simp [chans, h3], ?_,
    fun x => ⟨rfl, rfl, rfl, rfl, rfl, rfl⟩, rfl, rfl, rfl⟩
  simp [chans, h0, h1, h2, h3]

/-- Witness for C2 on abstract 64/64/64/4-channel inputs. -/
theorem c2_motion_estimator_witness :
    chans (Ten.var 64 0) = 64 ∧ chans (Ten.var 64 1) = 64
    ∧ chans (Ten.var 64 2) = 64 ∧ chans (Ten.var 4 3) = 4
    ∧ chans (motion_estimator_forward (.var 64 0) (.var 64 1) (.var 64 2) (.var 4 3)).1 = 4
    ∧ chans (motion_estimator_forward (.var 64 0) (.var 64 1) (.var 64 2) (.var 4 3)).2 = 64 := by
  have h := c2_motion_estimator (.var 64 0) (.var 64 1) (.var 64 2) (.var 4 3) rfl rfl rfl rfl
  exact ⟨rfl, rfl, rfl, rfl, h.2.2.2.2.2.1, h.2.2.2.2.2.2.1⟩

/-- C3: per pixel, `SynthesisNetwork.forward` decodes the 5-channel
prediction as `residual = sigmoid(channels 0:3) * 2 - 1` (so each residual
value lies in `[-1, 1]`), `mask0 = sigmoid(channel 3)`,
`mask1 = sigmoid(channel 4)`; the merged image is
`(warped0*mask0*(1-t) + warped1*mask1*t) / (mask0*(1-t) + mask1*t)`; and the
returned frame is `clamp(merged + residual, 0, 1)`. -/
theorem c3_synthesis_decode (pred : Fin 5 → ℝ) (w0 w1 : Fin 3 → ℝ) (t : ℝ) (i : Fin 3) :
    refine_res pred i = sigmoid (pred (Fin.castLE (by decide) i)) * 2 - 1
    ∧ -1 ≤ refine_res pred i ∧ refine_res pred i ≤ 1
    ∧ refine_mask0 pred = sigmoid (pred 3)
    ∧ refine_mask1 pred = sigmoid (pred 4)
    ∧ merged_img_pixel pred (w0 i) (w1 i) t
        = (w0 i * refine_mask0 pred * (1 - t) + w1 i * refine_mask1 pred * t)
          / (refine_mask0 pred * (1 - t) + refine_mask1 pred * t)
    ∧ interp_img_pixel pred w0 w1 t i
        = min (max (merged_img_pixel pred (w0 i) (w1 i) t + refine_res pred i) 0) 1 := by
  have hs1 := sigmoid_pos (pred (Fin.castLE (by decide) i))
  have hs2 := sigmoid_lt_one (pred (Fin.castLE (by decide) i))
  refine ⟨rfl, ?_, ?_, rfl, rfl, rfl, rfl⟩
  · unfold refine_res
    linarith
  · unfold refine_res
    linarith

/-- C4: for every prediction and every `time_period` in `(0, 1)`, the blend
denominator `mask0*(1-t) + mask1*t` is strictly positive, because both masks
are sigmoid outputs lying strictly between 0 and 1. -/
theorem c4_blend_denominator_pos (pred : Fin 5 → ℝ) (t : ℝ) (h0 : 0 < t) (h1 : t < 1) :
    0 < refine_mask0 pred * (1 - t) + refine_mask1 pred * t
    ∧ 0 < refine_mask0 pred ∧ refine_mask0 pred < 1
    ∧ 0 < refine_mask1 pred ∧ refine_mask1 pred < 1 := by
  have a0 := sigmoid_pos (pred 3)
  have a1 := sigmoid_lt_one (pred 3)
  have b0 := sigmoid_pos (pred 4)
  have b1 := sigmoid_lt_one (pred 4)
  refine ⟨?_, a0, a1, b0, b1⟩
  unfold refine_mask0 refine_mask1
  have ht : 0 < 1 - t := by linarith
  exact add_pos (mul_pos a0 ht) (mul_pos b0 h0)

/-- Witness for C4 at the zero prediction and `t = 1/2`. -/
theorem c4_blend_denominator_pos_witness :
    0 < (1/2 : ℝ) ∧ (1/2 : ℝ) < 1
    ∧ 0 < refine_mask0 (fun _ => 0) * (1 - (1/2 : ℝ))
        + refine_mask1 (fun _ => 0) * (1/2 : ℝ) :=
  ⟨by norm_num, by norm_num,
    (c4_blend_denominator_pos (fun _ => 0) (1/2) (by norm_num) (by norm_num)).1⟩

/-- C8: with both blend masks equal to 1 and the residual equal to 0, the
merged image of lines 290-293 reduces exactly to the linear blend
`warped0*(1-t) + warped1*t`, for every `t` in `(0, 1)`. -/
theorem c8_blend_linear (w0 w1 m0 m1 r t : ℝ) (hm0 : m0 = 1) (hm1 : m1 = 1) (hr : r = 0)
    (_h0 : 0 < t) (_h1 : t < 1) :
    merged_pixel w0 w1 m0 m1 t = w0 * (1 - t) + w1 * t
    ∧ merged_pixel w0 w1 m0 m1 t + r = w0 * (1 - t) + w1 * t := by
  subst hm0 hm1 hr
  have hmain : merged_pixel w0 w1 1 1 t = w0 * (1 - t) + w1 * t := by
    unfold merged_pixel
    rw [show (1:ℝ) * (1 - t) + 1 * t = 1 by ring, div_one]
    ring
  exact ⟨hmain, by rw [hmain]; ring⟩

/-- Witness for C8 at `warped0 = 2`, `warped1 = 4`, `t = 1/2`. -/
theorem c8_blend_linear_witness :
    (1 : ℝ) = 1 ∧ (0 : ℝ) = 0 ∧ 0 < (1/2 : ℝ) ∧ (1/2 : ℝ) < 1
    ∧ merged_pixel 2 4 1 1 (1/2) = 2 * (1 - (1/2 : ℝ)) + 4 * (1/2 : ℝ) :=
  ⟨rfl, rfl, by norm_num, by norm_num,
    (c8_blend_linear 2 4 1 1 0 (1/2) rfl rfl rfl (by norm_num) (by norm_num)).1⟩

/-- C7: at a non-initial, non-skipped, non-final-skip level (the `else` branch
at lines 440-447), the carried flow and feature are bilinearly resized ×2
(`align_corners=False`) with their values multiplied by 2, the carried
interpolation is resized ×2 with no value rescaling, and motion estimation is
not skipped. -/
theorem c7_normal_transition (img0 img1 : Ten) (t : ℚ) (p nr N H W : ℕ) (s : St) (level : ℕ)
    (hinit : level ≠ p - 1)
    (hskip : level ∉ (skipped_levels p nr).dropLast)
    (hfin : ¬(level = 0 ∧ skipped_levels p nr ≠ [])) :
    carryAtLevel (mkCtx img0 img1 t p nr N H W) (some s) level
      = some (.smul 2 (.resize 2 false s.flow), .smul 2 (.resize 2 false s.feat),
          some (.resize 2 false s.interp_img), false) := by
  unfold carryAtLevel mkCtx
  rw [if_neg hinit, if_neg hskip, if_neg hfin]

/-- Witness for C7 at `pyr_level = 3`, `nr_lvl_skipped = 0`, level 1. -/
theorem c7_normal_transition_witness :
    (1 : ℕ) ≠ 3 - 1
    ∧ 1 ∉ (skipped_levels 3 0).dropLast
    ∧ ¬((1 : ℕ) = 0 ∧ skipped_levels 3 0 ≠ [])
    ∧ carryAtLevel (mkCtx (.var 3 0) (.var 3 1) (1/2) 3 0 1 16 16)
        (some ⟨.var 4 10, .var 64 11, .var 3 12, .var 64 13, []⟩) 1
      = some (.smul 2 (.resize 2 false (.var 4 10)), .smul 2 (.resize 2 false (.var 64 11)),
          some (.resize 2 false (.var 3 12)), false) :=
  ⟨by decide, by decide, by decide,
    c7_normal_transition (.var 3 0) (.var 3 1) (1/2) 3 0 1 16 16
      ⟨.var 4 10, .var 64 11, .var 3 12, .var 64 13, []⟩ 1
      (by decide) (by decide) (by decide)⟩

/-- C5 (amended: for `pyr_level ≥ 2`): with `1 ≤ nr_lvl_skipped ≤ pyr_level`,
level 0 runs with motion estimation skipped: the carry branch of lines
424-437 yields `skip_me = true`, with the flow equal to a fresh zero tensor
at `H/4 × W/4` and no prior interpolation when every level was skipped
(`nr_lvl_skipped = pyr_level`), and otherwise equal to the last computed flow
bilinearly resized by `2^S` with values multiplied by `2^S`
(`S = nr_lvl_skipped`); and `forward_one_lvl` invoked with `skip_me = true`
returns the prior flow and feature unchanged (the motion estimator is not
invoked) while still producing a synthesized frame. -/
theorem c5_level0_skip (img0 img1 a0 a1 a2 a3 : Ten) (t : ℚ) (p nr N H W : ℕ) (s : St)
    (hp : 2 ≤ p) (h1 : 1 ≤ nr) (h2 : nr ≤ p) :
    let lf := if nr = p then Ten.zeros N 4 (H / 4) (W / 4)
      else Ten.smul ((2:ℚ) ^ nr) (.resize ((2:ℚ) ^ nr) false s.flow)
    let li : Option Ten := if nr = p then none
      else some (Ten.resize ((2:ℚ) ^ nr) false s.interp_img)
    carryAtLevel (mkCtx img0 img1 t p nr N H W) (some s) 0 = some (lf, s.last_feat, li, true)
    ∧ (forward_one_lvl a0 a1 a2 a3 s.last_feat lf li t true).1 = lf
    ∧ (forward_one_lvl a0 a1 a2 a3 s.last_feat lf li t true).2.1 = s.last_feat
    ∧ isSynth (forward_one_lvl a0 a1 a2 a3 s.last_feat lf li t true).2.2 = true := by
  have hne := skipped_levels_ne_nil p nr h1 h2
  have hlen := skipped_levels_length p nr h1 h2
  have h0m := zero_not_mem_skipped_dropLast p nr h1 h2
  refine ⟨?_, rfl, rfl, rfl⟩
  unfold carryAtLevel mkCtx
  rw [if_neg (show (0:ℕ) ≠ p - 1 by omega), if_neg h0m, if_pos ⟨rfl, hne⟩]
  show (if (skipped_levels p nr).length = p then _ else _) = _
  rw [hlen]
  by_cases hnp : nr = p
  · rw [if_pos hnp, if_pos hnp, if_pos hnp]
  · rw [if_neg hnp, if_neg hnp, if_neg hnp]

/-- Witness for C5 at `pyr_level = 3`, `nr_lvl_skipped = 1`. -/
theorem c5_level0_skip_witness :
    2 ≤ 3 ∧ 1 ≤ 1 ∧ 1 ≤ 3
    ∧ carryAtLevel (mkCtx (.var 3 0) (.var 3 1) (1/2) 3 1 1 16 16)
        (some ⟨.var 4 10, .var 64 11, .var 3 12, .var 64 13, []⟩) 0
      = some (.smul ((2:ℚ) ^ 1) (.resize ((2:ℚ) ^ 1) false (.var 4 10)), .var 64 13,
          some (.resize ((2:ℚ) ^ 1) false (.var 3 12)), true) := by
  have h := c5_level0_skip (.var 3 0) (.var 3 1) (.var 3 20) (.var 3 21) (.var 3 22)
    (.var 3 23) (1/2) 3 1 1 16 16 ⟨.var 4 10, .var 64 11, .var 3 12, .var 64 13, []⟩
    (by decide) (by decide) (by decide)
  exact ⟨by decide, by decide, by decide, h.1⟩

/-- C5 counterexample: at `pyr_level = 1`, `nr_lvl_skipped = 1` the skip list
is `[0]` (so `nr_lvl_skipped > 0` and level 0 is the finest level), yet the
branch taken at level 0 is the coarsest-level initializer, which leaves
`skip_me = false`, and `forward_one_lvl` with `skip_me = false` returns a
flow produced by the motion estimator's final convolution — the claim that
level 0 then runs with motion estimation skipped is false. -/
theorem c5_counterexample :
    skipped_levels 1 1 = [0]
    ∧ carryAtLevel (mkCtx (.var 3 0) (.var 3 1) (1/2) 1 1 1 16 16) none 0
      = some (.zeros 1 4 4 4, .zeros 1 64 4 4, none, false)
    ∧ isMEConv (forward_one_lvl (.var 3 0) (.var 3 1) (.var 3 2) (.var 3 3)
        (.zeros 1 64 4 4) (.zeros 1 4 4 4) none (1/2) false).1 = true :=
  ⟨rfl, rfl, rfl⟩

/-- C6 (amended): `Model.forward` appends one ×4-upsampled flow to `bi_flows`
for every processed level, but `interp_imgs` receives its single append only
after the loop (line 463), so the returned diagnostics hold one flow per
processed level and exactly one interpolated frame — the finest one; the
returned `bi_flow` is the final flow resized ×4. -/
theorem c6_terminal_amended (f : OneLvlFn) (img0 img1 : Ten) (t : ℚ) (p nr N H W : ℕ)
    (hp : 1 ≤ p) :
    ∃ s : St,
      runLoop (levelBody (mkCtx img0 img1 t p nr N H W) f) ((List.range p).reverse) none
        = some s
      ∧ s.bi_flows.length
          = (List.range p).reverse.countP (processedB (mkCtx img0 img1 t p nr N H W))
      ∧ model_forward f img0 img1 t p nr N H W
          = some ⟨img0, s.interp_img, .resize 4 false s.flow, [s.interp_img], s.bi_flows⟩ := by
  obtain ⟨pp, rfl⟩ : ∃ pp, p = pp + 1 := ⟨p - 1, by omega⟩
  obtain ⟨s1, hs1, hl1⟩ := levelBody_none_init (mkCtx img0 img1 t (pp + 1) nr N H W) f
  have hpl : (mkCtx img0 img1 t (pp + 1) nr N H W).pyr_level - 1 = pp := rfl
  rw [hpl] at hs1
  obtain ⟨s, hs, hl⟩ := runLoop_length (mkCtx img0 img1 t (pp + 1) nr N H W) f
    ((List.range pp).reverse) s1
  have hrun : runLoop (levelBody (mkCtx img0 img1 t (pp + 1) nr N H W) f)
      ((List.range (pp + 1)).reverse) none = some s := by
    rw [range_reverse_succ]
    show runLoop (levelBody (mkCtx img0 img1 t (pp + 1) nr N H W) f) ((List.range pp).reverse)
      (levelBody (mkCtx img0 img1 t (pp + 1) nr N H W) f none pp) = some s
    rw [hs1, hs]
  refine ⟨s, hrun, ?_, ?_⟩
  · rw [range_reverse_succ, List.countP_cons]
    have hproc : processedB (mkCtx img0 img1 t (pp + 1) nr N H W) pp = true := by
      unfold processedB
      rw [hpl]
      simp
    rw [hproc, hl, hl1]
    simp
    omega
  · simp only [model_forward]
    rw [hrun]

/-- Witness for C6 (amended) at `pyr_level = 3`, `nr_lvl_skipped = 0`, with a
concrete per-level callee. -/
theorem c6_terminal_amended_witness :
    1 ≤ 3
    ∧ ∃ s : St,
        runLoop (levelBody (mkCtx (.var 3 0) (.var 3 1) (1/2) 3 0 1 16 16)
            (fun a _ c d _ _ _ => (c, d, a))) ((List.range 3).reverse) none
          = some s
        ∧ s.bi_flows.length
            = (List.range 3).reverse.countP (processedB (mkCtx (.var 3 0) (.var 3 1) (1/2) 3 0 1 16 16))
        ∧ model_forward (fun a _ c d _ _ _ => (c, d, a)) (.var 3 0) (.var 3 1) (1/2) 3 0 1 16 16
            = some ⟨.var 3 0, s.interp_img, .resize 4 false s.flow, [s.interp_img], s.bi_flows⟩ :=
  ⟨by decide,
    c6_terminal_amended (fun a _ c d _ _ _ => (c, d, a)) (.var 3 0) (.var 3 1) (1/2) 3 0 1 16 16
      (by decide)⟩

/-- C6 counterexample: at `pyr_level = 3`, `nr_lvl_skipped = 0` all three
levels are processed (`countP` of the processed predicate is 3) and
`bi_flows` receives three entries, but `interp_imgs` holds a single frame,
not one per processed level as the claim states. -/
theorem c6_counterexample :
    ((List.range 3).reverse.countP (processedB (mkCtx (.var 3 0) (.var 3 1) (1/2) 3 0 1 16 16))) = 3
    ∧ (model_forward (fun a _ c d _ _ _ => (c, d, a)) (.var 3 0) (.var 3 1) (1/2) 3 0 1 16 16).map
        (fun o => (o.bi_flows.length, o.interp_imgs.length)) = some (3, 1)
    ∧ (1 : ℕ) ≠ 3 := by
  refine ⟨rfl, rfl, by decide⟩

/-- C9: with `nr_lvl_skipped = 0` the skip list is empty and `Model.forward`
computes exactly what the spec's skip-free pyramid driver computes, for every
per-level callee and every input. -/
theorem c9_no_skip_equivalence (f : OneLvlFn) (img0 img1 : Ten) (t : ℚ) (p N H W : ℕ) :
    model_forward f img0 img1 t p 0 N H W = model_forward_noskip f img0 img1 t p N H W
    ∧ skipped_levels p 0 = [] := by
  refine ⟨?_, rfl⟩
  have h := runLoop_congr (levelBody (mkCtx img0 img1 t p 0 N H W) f)
    (levelBodyNoSkip ⟨img0, img1, N, H, W, t, p⟩ f)
    (levelBody_eq_noskip (mkCtx img0 img1 t p 0 N H W) rfl f)
    ((List.range p).reverse) none
  simp only [model_forward, model_forward_noskip]
  rw [h]

/-- C1: the call at lines 449-452 passes six positional arguments to the
nine-parameter `forward_one_lvl`, so at the coarsest level Python binds the
64-channel zero feature state to the `img0_depth` parameter; the depth
feature pyramid then applies `Conv2d(in_channels=3, ...)` to a 64-channel
tensor, which PyTorch rejects — `Model.forward` raises before any
interpolated frame can be produced, so no output pixel is ever returned (the
clamp at line 295 shows the claimed `[0,1]` bound is the intent). -/
theorem c1_model_forward_call_drops_depth_inputs (img0 img1 : Ten) (t : ℚ) (p N H W : ℕ)
    (_hp : 1 ≤ p) :
    let level := p - 1
    let img0_this_lvl := if level ≠ 0 then Ten.resize (1 / 2 ^ level) false img0 else img0
    let img1_this_lvl := if level ≠ 0 then Ten.resize (1 / 2 ^ level) false img1 else img1
    let last_flow := Ten.zeros N 4 (H / 2 ^ (level + 2)) (W / 2 ^ (level + 2))
    let last_feat := Ten.zeros N 64 (H / 2 ^ (level + 2)) (W / 2 ^ (level + 2))
    let args := forward_one_lvl_call_binding img0_this_lvl img1_this_lvl last_feat last_flow
      none t false
    args.img0_depth = Ten.zeros N 64 (H / 2 ^ (level + 2)) (W / 2 ^ (level + 2))
    ∧ chans args.img0_depth = 64
    ∧ conv_stage0_checked .depth args.img0_depth = none :=
  ⟨rfl, rfl, rfl⟩

/-- Witness for C1 at `pyr_level = 3`, 64×64 inputs. -/
theorem c1_model_forward_call_drops_depth_inputs_witness :
    1 ≤ 3 ∧ conv_stage0_checked Modality.depth (Ten.zeros 1 64 4 4) = none := by
  have h := c1_model_forward_call_drops_depth_inputs (.var 3 0) (.var 3 1) (1/2) 3 1 64 64
    (by decide)
  exact ⟨by decide, h.2.2⟩

end UprBase
